import Mathlib

/-!
Verification of the SafeOn ML flow-anomaly scoring engine
(`safeon_ML-FastAPI/app/model.py`) against its specification.

The Python source is shallowly embedded: floats become exact rationals
(`ℚ`), the sklearn estimators (`MinMaxScaler`, `IsolationForest`,
`RandomForestClassifier`) and `np.log1p` become opaque function fields of
the service record, fallible paths become `Except`/`Option`, and the
mutable `prev_flow_stats` dictionary becomes an association list threaded
through the functions that mutate it.
-/

namespace SafeOn

/-- Clamp a rational into the unit interval; embeds the recurring Python
idiom `max(0.0, min(1.0, x))` from `model.py`. -/
def clamp01 (x : ℚ) : ℚ := max 0 (min 1 x)

/-- Embeds the Pydantic `FlowFeatures` record (`model.py` lines 41-114).
`duration` is the already-validated value (the validator back-fills it to a
float, never `None`); the four optional delta/cumulative fields keep their
optionality. -/
structure FlowFeatures where
  src_ip : String
  dst_ip : String
  src_port : Int
  dst_port : Int
  proto : String
  packet_count : Int
  byte_count : Int
  duration : ℚ
  pps : ℚ
  bps : ℚ
  pps_delta : Option ℚ
  bps_delta : Option ℚ
  pps_cum_increase : Option ℚ
  bps_cum_increase : Option ℚ
deriving DecidableEq

/-- A `prev_flow_stats` entry: `(pps, bps, pps_cum_increase, bps_cum_increase)`
as stored by `ModelService._resolve_flow_deltas`. -/
abbrev RateEntry := ℚ × ℚ × ℚ × ℚ

/-- The `prev_flow_stats` dictionary, as an association list keyed by the
flow key string. -/
abbrev FlowStats := List (String × RateEntry)

/-- Embeds `ModelService._flow_key` (`model.py` lines 502-511): the
"|"-joined 5-tuple with the protocol upper-cased. -/
def flow_key (flow : FlowFeatures) : String :=
  String.intercalate "|"
    [flow.src_ip, flow.dst_ip, toString flow.src_port, toString flow.dst_port,
      flow.proto.toUpper]

/-- Dictionary assignment `self.prev_flow_stats[key] = entry`: replace any
existing binding for `key`. -/
def setStat (stats : FlowStats) (key : String) (e : RateEntry) : FlowStats :=
  (key, e) :: stats.filter (fun p => !(p.1 == key))

/-- Embeds `ModelService._resolve_flow_deltas` (`model.py` lines 514-549).
On a miss the previous entry defaults to `(current_pps, current_bps, 0, 0)`;
deltas are current minus previous, each replaced by the caller's override
when supplied (in Python `float()` of an optional float never raises, so
the `except` branches there are dead); cumulative increases add the clamped
delta to the previous cumulative and are likewise replaced by an override
when supplied.  Returns the resolved 4-tuple and the updated dictionary. -/
def resolve_flow_deltas (stats : FlowStats) (flow : FlowFeatures)
    (current_pps current_bps : ℚ) : (ℚ × ℚ × ℚ × ℚ) × FlowStats :=
  let key := flow_key flow
  let prev := (stats.lookup key).getD (current_pps, current_bps, 0, 0)
  let delta_pps :=
    match flow.pps_delta with
    | some d => d
    | none => current_pps - prev.1
  let delta_bps :=
    match flow.bps_delta with
    | some d => d
    | none => current_bps - prev.2.1
  let pps_cum :=
    match flow.pps_cum_increase with
    | some v => v
    | none => prev.2.2.1 + max 0 delta_pps
  let bps_cum :=
    match flow.bps_cum_increase with
    | some v => v
    | none => prev.2.2.2 + max 0 delta_bps
  ((delta_pps, delta_bps, pps_cum, bps_cum),
    setStat stats key (current_pps, current_bps, pps_cum, bps_cum))

/-- A flow record with the given pps and no caller-supplied overrides, used
to exercise the tracker on concrete sequences. -/
def mkFlow (p : ℚ) : FlowFeatures :=
  { src_ip := "10.0.0.1", dst_ip := "10.0.0.2", src_port := 1234,
    dst_port := 80, proto := "TCP", packet_count := 1, byte_count := 40,
    duration := 0, pps := p, bps := 0,
    pps_delta := none, bps_delta := none,
    pps_cum_increase := none, bps_cum_increase := none }

/-- Embeds sklearn's `LabelEncoder` as used by `model.py`: the fitted state
is the sorted list of distinct training values (`classes_`), and
`transform` of a known value is its index in that list. -/
structure LabelEncoder where
  classes : List String
deriving DecidableEq

/-- Embeds `LabelEncoder().fit(values)`: `classes_ = np.unique(values)`, the
sorted distinct values. -/
def LabelEncoder.fit (values : List String) : LabelEncoder :=
  ⟨values.dedup.insertionSort (· ≤ ·)⟩

/-- Embeds `encoder.transform([v])[0]` for a value present in `classes_`: its
index in the sorted class list. -/
def LabelEncoder.transform (enc : LabelEncoder) (v : String) : Int :=
  (enc.classes.indexOf v : Int)

/-- Embeds `ModelService._safe_label_encode` (`model.py` lines 495-500):
membership in `classes_` is checked first, unseen values map to the
sentinel `-1`, seen values to their learned code.  The Lean function is
total, mirroring the Python contract that this call never raises. -/
def safe_label_encode (enc : LabelEncoder) (v : String) : Int :=
  if v ∈ enc.classes then enc.transform v else -1

/-- Numerical-degeneracy epsilon `1e-9` used by `model.py`. -/
def epsSpan : ℚ := 1 / 1000000000

/-- Embeds the fit-time span adjustment of `ModelService.train`
(`model.py` lines 334-338): after computing the min and max of the
isolation-forest decision scores over the full training set, a degenerate
span (`max - min <= 1e-9`) is widened by setting `max = min + 1e-6`. -/
def fit_iso_span (lo hi : ℚ) : ℚ × ℚ :=
  if hi - lo ≤ epsSpan then (lo, lo + 1 / 1000000) else (lo, hi)

/-- In-memory state of `ModelService` as far as prediction is concerned
(`model.py` lines 154-194).  The sklearn estimators and `np.log1p` are
opaque functions: `iso_model` is the raw `decision_function` restricted to
a single row, `rf_model` (when loaded) maps a row to `some` attack-class
probability, or to `none` when `predict_proba` raises (the exception that
`_rf_score` catches), and `scaler` is `MinMaxScaler.transform` on one row. -/
structure ModelService where
  allow_dummy : Bool
  threshold : ℚ
  iso_decision_min : ℚ
  iso_decision_max : ℚ
  enc_src_ip : LabelEncoder
  enc_dst_ip : LabelEncoder
  enc_proto : LabelEncoder
  scaler : List ℚ → List ℚ
  log1p : ℚ → ℚ
  iso_model : Option (List ℚ → ℚ)
  rf_model : Option (List ℚ → Option ℚ)
  model_loaded : Bool
  prev_flow_stats : FlowStats

/-- Embeds `ModelService._iso_score` (`model.py` lines 589-598): `0.0`
when no detector is loaded; otherwise the stored-span normalization of the
raw decision score, clamped to `[0, 1]`, falling back to clamped negation
when the stored span is numerically degenerate. -/
def iso_score_fn (svc : ModelService) (v : List ℚ) : ℚ :=
  match svc.iso_model with
  | none => 0
  | some m =>
    let raw := m v
    let span := svc.iso_decision_max - svc.iso_decision_min
    if span ≤ epsSpan then clamp01 (-raw)
    else clamp01 ((svc.iso_decision_max - raw) / span)

/-- Embeds `ModelService._rf_score` (`model.py` lines 600-607): `none`
when the classifier is absent, and otherwise the classifier's outcome,
where `none` models `predict_proba` raising (caught and logged, returned
as Python `None`). -/
def rf_score_fn (svc : ModelService) (v : List ℚ) : Option ℚ :=
  match svc.rf_model with
  | none => none
  | some m => m v

/-- The dictionary returned by `ModelService.predict` (`model.py` lines
421-426): verdict, isolation-forest score, hybrid score, and the optional
classifier score. -/
structure ScoreBundle where
  is_anom : Bool
  iso_score : ℚ
  hybrid_score : ℚ
  rf_score : Option ℚ
deriving DecidableEq

/-- Embeds `ModelService._dummy_result` (`model.py` lines 750-756): the
constant neutral bundle returned in dummy mode. -/
def dummy_result : ScoreBundle :=
  { is_anom := false, iso_score := 0, hybrid_score := 0, rf_score := some (1/2) }

/-- Embeds `ModelService._transform_flow` (`model.py` lines 551-587): the
flow is laid out in the fixed `feature_columns` order, the deltas are
resolved (mutating `prev_flow_stats`), `pps`/`bps` pass through `log1p`,
the categorical columns through `_safe_label_encode`, and the row through
the fitted scaler.  Returns the scaled row and the updated service. -/
def transform_flow (svc : ModelService) (flow : FlowFeatures) :
    List ℚ × ModelService :=
  let r := resolve_flow_deltas svc.prev_flow_stats flow flow.pps flow.bps
  let d := r.1
  let vec : List ℚ :=
    [ (safe_label_encode svc.enc_src_ip flow.src_ip : ℚ),
      (safe_label_encode svc.enc_dst_ip flow.dst_ip : ℚ),
      (flow.src_port : ℚ), (flow.dst_port : ℚ),
      (safe_label_encode svc.enc_proto flow.proto.toUpper : ℚ),
      (flow.packet_count : ℚ), (flow.byte_count : ℚ), flow.duration,
      svc.log1p flow.pps, svc.log1p flow.bps,
      d.1, d.2.1, d.2.2.1, d.2.2.2 ]
  (svc.scaler vec, { svc with prev_flow_stats := r.2 })

/-- Embeds `ModelService.predict` (`model.py` lines 375-426).  When no
model is loaded it either raises (dummy mode not permitted) or returns the
neutral bundle untouched state; otherwise it scores the transformed flow:
`rf_contrib` is the classifier score when available, else `0.5`, clamped
to `[0, 1]`; `hybrid = (iso + rf_contrib) / 2`; the verdict compares the
hybrid score against the threshold.  Database persistence (`_persist_score`)
is fire-and-forget and does not affect the returned bundle, so it is not
modelled. -/
def predict (svc : ModelService) (flow : FlowFeatures) :
    Except String (ScoreBundle × ModelService) :=
  if svc.model_loaded = false then
    if svc.allow_dummy = false then
      Except.error "Trained model is missing. Run train.py first or set ALLOW_DUMMY=true."
    else
      Except.ok (dummy_result, svc)
  else
    let tr := transform_flow svc flow
    let scaled_vec := tr.1
    let svc2 := tr.2
    let iso_score := iso_score_fn svc2 scaled_vec
    let rf_score := rf_score_fn svc2 scaled_vec
    let rf_contrib :=
      clamp01 (match rf_score with | some q => q | none => 1/2)
    let hybrid_score := (iso_score + rf_contrib) / 2
    let is_anom : Bool := decide (svc2.threshold ≤ hybrid_score)
    Except.ok
      ({ is_anom := is_anom, iso_score := iso_score,
         hybrid_score := hybrid_score, rf_score := rf_score }, svc2)

/-- Embeds the per-threshold F1 computation inside
`ModelService._calculate_threshold` (`model.py` lines 655-663): predictions
are `score >= thresh`, counts are taken against the labels, and precision,
recall, and F1 are smoothed with `1e-9` exactly as in the source. -/
def f1At (rows : List (ℚ × Int)) (thresh : ℚ) : ℚ :=
  let eps : ℚ := 1 / 1000000000
  let tp : ℚ := (rows.countP (fun r => decide (thresh ≤ r.1) && decide (r.2 = 1)) : ℚ)
  let fp : ℚ := (rows.countP (fun r => decide (thresh ≤ r.1) && decide (r.2 = 0)) : ℚ)
  let fnc : ℚ := (rows.countP (fun r => decide (¬ thresh ≤ r.1) && decide (r.2 = 1)) : ℚ)
  let prec := tp / (tp + fp + eps)
  let rcl := tp / (tp + fnc + eps)
  2 * prec * rcl / (prec + rcl + eps)

/-- One iteration of the grid search in `_calculate_threshold` (`model.py`
lines 655-667): the accumulator `(best_thresh, best_f1)` is replaced
exactly when the candidate's F1 strictly exceeds the best so far. -/
def gridStep (f : ℚ → ℚ) (acc : ℚ × ℚ) (c : ℚ) : ℚ × ℚ :=
  if acc.2 < f c then (c, f c) else acc

/-- Embeds `np.linspace(0.10, 0.99, 90)` from `model.py` line 651, exactly. -/
def thresholdCandidates : List ℚ :=
  List.map (fun i : ℕ => 1/10 + (i : ℚ) * ((99/100 - 1/10) / 89)) (List.range 90)

/-- Embeds `ModelService._calculate_threshold` (`model.py` lines 638-676).
The function takes the hybrid scores that `_hybrid_scores` computes for the
feature rows, paired against the labels.  Empty data or single-class labels
return the configured default; otherwise a strict-improvement fold over the
candidate grid starting from `(default, -1.0)` returns the best threshold. -/
def calculate_threshold (default : ℚ) (hybrid_scores : List ℚ)
    (labels : List Int) : ℚ :=
  if hybrid_scores.isEmpty || labels.isEmpty then default
  else if labels.dedup.length < 2 then default
  else
    (thresholdCandidates.foldl (gridStep (f1At (hybrid_scores.zip labels)))
      (default, -1)).1

/-- The artifact blobs written by `ModelService.train` and checked by
`ModelService._load_artifacts`. -/
inductive ArtifactName where
  | enc_src_ip
  | enc_dst_ip
  | enc_proto
  | scaler
  | isolation_forest
  | rf_model
  | meta
deriving DecidableEq

/-- The order in which `ModelService.train` writes the artifacts in place
(`model.py` lines 324-327, 333, 352, 364): three encoders, the scaler, the
isolation forest, the optional classifier, then the metadata. -/
def trainWriteOrder : List ArtifactName :=
  [ArtifactName.enc_src_ip, ArtifactName.enc_dst_ip, ArtifactName.enc_proto,
   ArtifactName.scaler, ArtifactName.isolation_forest, ArtifactName.rf_model,
   ArtifactName.meta]

/-- The artifacts whose existence `ModelService._load_artifacts` requires
before it loads a bundle (`model.py` lines 432-444); `meta` and `rf_model`
are optional there. -/
def requiredArtifacts : List ArtifactName :=
  [ArtifactName.enc_src_ip, ArtifactName.enc_dst_ip, ArtifactName.enc_proto,
   ArtifactName.scaler, ArtifactName.isolation_forest]

/-- The on-disk artifact directory: for each artifact, `none` when the file
is missing, `some v` when present with version stamp `v` (the stamp
distinguishes the training run that produced the file). -/
def ArtifactStore : Type := ArtifactName → Option Nat

/-- The store left behind when a training run writing version `v` fails
after completing the first `k` writes of `trainWriteOrder`: those files
hold the new version, all others keep their previous content. -/
def writeUpTo (store : ArtifactStore) (v : Nat) (k : Nat) : ArtifactStore :=
  fun a => if a ∈ trainWriteOrder.take k then some v else store a

/-- The existence check of `ModelService._load_artifacts` (`model.py`
lines 432-444): a bundle is loaded whenever every required artifact file
exists. -/
def loadable (store : ArtifactStore) : Bool :=
  requiredArtifacts.all (fun a => (store a).isSome)

/-- A loaded service fixture used by the witness theorems. -/
def demoService : ModelService :=
  { allow_dummy := true, threshold := 51/100,
    iso_decision_min := 0, iso_decision_max := 1,
    enc_src_ip := LabelEncoder.fit ["10.0.0.1"],
    enc_dst_ip := LabelEncoder.fit ["10.0.0.2"],
    enc_proto := LabelEncoder.fit ["TCP"],
    scaler := fun v => v, log1p := fun x => x,
    iso_model := some (fun _ => 1/2),
    rf_model := some (fun _ => some (3/4)),
    model_loaded := true, prev_flow_stats := [] }


/-! ## Lemmas and claim theorems -/

lemma clamp01_nonneg (x : ℚ) : 0 ≤ clamp01 x := le_max_left _ _

lemma clamp01_le_one (x : ℚ) : clamp01 x ≤ 1 := by
  unfold clamp01
  exact max_le (by norm_num) (min_le_left _ _)

lemma clamp01_mono {x y : ℚ} (h : x ≤ y) : clamp01 x ≤ clamp01 y := by
  unfold clamp01
  exact max_le_max le_rfl (min_le_min le_rfl h)

/-- Claim C3: for every flow key, on the first sighting (no caller override)
the computed delta is 0 and the cumulative increase is 0; on each subsequent
sighting `delta = current - previous` and
`cumulative_increase = previous_cumulative + max(0, delta)`; and for a key
observed with pps values `[10, 15, 12, 20]` without overrides the deltas are
`[0, 5, -3, 8]` and the cumulative increases are `[0, 5, 5, 13]`. -/
theorem claim3_rate_delta_tracker (stats : FlowStats) (flow : FlowFeatures)
    (cp cb : ℚ)
    (hd : flow.pps_delta = none) (hbd : flow.bps_delta = none)
    (hc : flow.pps_cum_increase = none) (hbc : flow.bps_cum_increase = none) :
    ((stats.lookup (flow_key flow) = none →
        (resolve_flow_deltas stats flow cp cb).1 = (0, 0, 0, 0)) ∧
      (∀ pp pb pc bcum, stats.lookup (flow_key flow) = some (pp, pb, pc, bcum) →
        (resolve_flow_deltas stats flow cp cb).1 =
          (cp - pp, cb - pb, pc + max 0 (cp - pp), bcum + max 0 (cb - pb)))) ∧
    (([(resolve_flow_deltas [] (mkFlow 10) 10 0).1.1,
        (resolve_flow_deltas (resolve_flow_deltas [] (mkFlow 10) 10 0).2
          (mkFlow 15) 15 0).1.1,
        (resolve_flow_deltas (resolve_flow_deltas
            (resolve_flow_deltas [] (mkFlow 10) 10 0).2 (mkFlow 15) 15 0).2
          (mkFlow 12) 12 0).1.1,
        (resolve_flow_deltas (resolve_flow_deltas (resolve_flow_deltas
            (resolve_flow_deltas [] (mkFlow 10) 10 0).2 (mkFlow 15) 15 0).2
            (mkFlow 12) 12 0).2 (mkFlow 20) 20 0).1.1] : List ℚ) = [0, 5, -3, 8] ∧
      ([(resolve_flow_deltas [] (mkFlow 10) 10 0).1.2.2.1,
        (resolve_flow_deltas (resolve_flow_deltas [] (mkFlow 10) 10 0).2
          (mkFlow 15) 15 0).1.2.2.1,
        (resolve_flow_deltas (resolve_flow_deltas
            (resolve_flow_deltas [] (mkFlow 10) 10 0).2 (mkFlow 15) 15 0).2
          (mkFlow 12) 12 0).1.2.2.1,
        (resolve_flow_deltas (resolve_flow_deltas (resolve_flow_deltas
            (resolve_flow_deltas [] (mkFlow 10) 10 0).2 (mkFlow 15) 15 0).2
            (mkFlow 12) 12 0).2 (mkFlow 20) 20 0).1.2.2.1] : List ℚ) = [0, 5, 5, 13]) := by
  refine ⟨⟨?_, ?_⟩, ?_, ?_⟩
  · intro h
    simp [resolve_flow_deltas, hd, hbd, hc, hbc, h]
  · intro pp pb pc bcum h
    simp [resolve_flow_deltas, hd, hbd, hc, hbc, h]
  · norm_num [resolve_flow_deltas, mkFlow, flow_key, setStat, List.lookup]
  · norm_num [resolve_flow_deltas, mkFlow, flow_key, setStat, List.lookup]

/-- Witness for C3 at a concrete first sighting. -/
theorem claim3_rate_delta_tracker_witness :
    (resolve_flow_deltas [] (mkFlow 10) 10 0).1 = (0, 0, 0, 0) :=
  (claim3_rate_delta_tracker [] (mkFlow 10) 10 0 rfl rfl rfl rfl).1.1 rfl

/-- Claim C4: a trained encoder's `encode` never raises (it is total):
seen values map to the learned code (which is never the sentinel, being
non-negative), unseen values always map to `-1`, and the result depends
only on the fitted state, so repeated calls are stable. -/
theorem claim4_safe_encoder (values : List String) (v : String) :
    (v ∈ values →
      safe_label_encode (LabelEncoder.fit values) v =
        (LabelEncoder.fit values).transform v ∧
      0 ≤ safe_label_encode (LabelEncoder.fit values) v) ∧
    (v ∉ values → safe_label_encode (LabelEncoder.fit values) v = -1) ∧
    (∀ enc enc' : LabelEncoder, enc = enc' →
      safe_label_encode enc v = safe_label_encode enc' v) := by
  have hmem : v ∈ (LabelEncoder.fit values).classes ↔ v ∈ values := by
    simp [LabelEncoder.fit, List.mem_insertionSort, List.mem_dedup]
  refine ⟨?_, ?_, ?_⟩
  · intro hv
    have hv' : v ∈ (LabelEncoder.fit values).classes := hmem.mpr hv
    refine ⟨by simp [safe_label_encode, hv'], ?_⟩
    simp only [safe_label_encode, hv', if_pos, LabelEncoder.transform]
    positivity
  · intro hv
    have hv' : v ∉ (LabelEncoder.fit values).classes := fun h => hv (hmem.mp h)
    simp [safe_label_encode, hv']
  · intro enc enc' h
    rw [h]

/-- Witness for C4: seen and unseen values on a concrete fitted encoder. -/
theorem claim4_safe_encoder_witness :
    safe_label_encode (LabelEncoder.fit ["TCP", "UDP"]) "TCP" =
      (LabelEncoder.fit ["TCP", "UDP"]).transform "TCP" ∧
    safe_label_encode (LabelEncoder.fit ["TCP", "UDP"]) "ICMP" = -1 :=
  ⟨((claim4_safe_encoder ["TCP", "UDP"] "TCP").1 (by decide)).1,
    (claim4_safe_encoder ["TCP", "UDP"] "ICMP").2.1 (by decide)⟩


/-- Claim C2: with a detector loaded, the inference-time normalized score is
`(iso_decision_max - raw) / (iso_decision_max - iso_decision_min)` clamped to
`[0, 1]` whenever the stored span exceeds `1e-9`, and `-raw` clamped to
`[0, 1]` when the stored span is degenerate; lower raw decision scores map to
higher normalized scores; and the fit-time widening always leaves a stored
span strictly above `1e-9`, so the degenerate division is impossible after a
reload of freshly trained metadata. -/
theorem claim2_iso_normalization (svc : ModelService) (m : List ℚ → ℚ)
    (v : List ℚ) (hm : svc.iso_model = some m) :
    (epsSpan < svc.iso_decision_max - svc.iso_decision_min →
      iso_score_fn svc v =
        clamp01 ((svc.iso_decision_max - m v) /
          (svc.iso_decision_max - svc.iso_decision_min))) ∧
    (svc.iso_decision_max - svc.iso_decision_min ≤ epsSpan →
      iso_score_fn svc v = clamp01 (-(m v))) ∧
    (∀ raw1 raw2 : ℚ, raw1 ≤ raw2 →
      epsSpan < svc.iso_decision_max - svc.iso_decision_min →
      clamp01 ((svc.iso_decision_max - raw2) /
          (svc.iso_decision_max - svc.iso_decision_min)) ≤
        clamp01 ((svc.iso_decision_max - raw1) /
          (svc.iso_decision_max - svc.iso_decision_min))) ∧
    (∀ lo hi : ℚ, epsSpan < (fit_iso_span lo hi).2 - (fit_iso_span lo hi).1) := by
  refine ⟨?_, ?_, ?_, ?_⟩
  · intro h
    simp [iso_score_fn, hm, not_le.mpr h]
  · intro h
    simp [iso_score_fn, hm, h]
  · intro raw1 raw2 hr hsp
    apply clamp01_mono
    have hpos : 0 < svc.iso_decision_max - svc.iso_decision_min := by
      have : (0 : ℚ) < epsSpan := by norm_num [epsSpan]
      linarith
    exact (div_le_div_iff_of_pos_right hpos).mpr (by linarith)
  · intro lo hi
    unfold fit_iso_span
    split_ifs with h
    · simp only [Prod.snd, Prod.fst]
      norm_num [epsSpan]
    · simp only [Prod.snd, Prod.fst]
      linarith [not_le.mp h]

/-- Witness for C2 on a concrete loaded service. -/
theorem claim2_iso_normalization_witness :
    iso_score_fn demoService [] =
      clamp01 ((demoService.iso_decision_max - (1/2 : ℚ)) /
        (demoService.iso_decision_max - demoService.iso_decision_min)) :=
  (claim2_iso_normalization demoService (fun _ => (1/2 : ℚ)) [] rfl).1
    (by norm_num [demoService, epsSpan])

/-- Claim C8: with no model loaded, prediction in permitted dummy mode
returns the fixed neutral bundle (`is_anom = false`, `hybrid_score = 0`,
`iso_score = 0`, `rf_score = 0.5`) for every input, and with dummy mode not
permitted it raises instead of returning a bundle. -/
theorem claim8_dummy_mode (svc : ModelService) (flow : FlowFeatures)
    (h : svc.model_loaded = false) :
    (svc.allow_dummy = true →
      predict svc flow = Except.ok (dummy_result, svc)) ∧
    (svc.allow_dummy = false →
      predict svc flow =
        Except.error
          "Trained model is missing. Run train.py first or set ALLOW_DUMMY=true.") ∧
    dummy_result =
      { is_anom := false, iso_score := 0, hybrid_score := 0,
        rf_score := some (1/2) } := by
  refine ⟨?_, ?_, rfl⟩
  · intro ha
    simp [predict, h, ha]
  · intro ha
    simp [predict, h, ha]

/-- Witness for C8 in permitted dummy mode on a concrete service. -/
theorem claim8_dummy_mode_witness :
    predict { demoService with model_loaded := false } (mkFlow 10) =
      Except.ok (dummy_result, { demoService with model_loaded := false }) :=
  (claim8_dummy_mode { demoService with model_loaded := false } (mkFlow 10)
    rfl).1 rfl

/-- Claim C10: a dummy-mode prediction leaves `prev_flow_stats` exactly
unchanged and its result does not depend on that state: rate-tracker state
is only touched by predictions made with a loaded model. -/
theorem claim10_dummy_frame (svc : ModelService) (flow : FlowFeatures)
    (h1 : svc.model_loaded = false) (h2 : svc.allow_dummy = true) :
    predict svc flow = Except.ok (dummy_result, svc) ∧
    (∀ b s, predict svc flow = Except.ok (b, s) →
      s.prev_flow_stats = svc.prev_flow_stats ∧ b = dummy_result) ∧
    (∀ stats2 : FlowStats,
      predict { svc with prev_flow_stats := stats2 } flow =
        Except.ok (dummy_result, { svc with prev_flow_stats := stats2 })) := by
  have hp : predict svc flow = Except.ok (dummy_result, svc) := by
    simp [predict, h1, h2]
  refine ⟨hp, ?_, ?_⟩
  · intro b s hbs
    rw [hp] at hbs
    simp only [Except.ok.injEq, Prod.mk.injEq] at hbs
    obtain ⟨hb, hs⟩ := hbs
    exact ⟨by rw [← hs], hb.symm⟩
  · intro stats2
    simp [predict, h1, h2]

/-- Witness for C10 on a concrete service with non-empty tracker state. -/
theorem claim10_dummy_frame_witness :
    predict
        { demoService with
          model_loaded := false
          prev_flow_stats := [(flow_key (mkFlow 10), (10, 0, 7, 2))] }
        (mkFlow 12) =
      Except.ok (dummy_result,
        { demoService with
          model_loaded := false
          prev_flow_stats := [(flow_key (mkFlow 10), (10, 0, 7, 2))] }) :=
  (claim10_dummy_frame
    { demoService with
      model_loaded := false
      prev_flow_stats := [(flow_key (mkFlow 10), (10, 0, 7, 2))] }
    (mkFlow 12) rfl rfl).1

/-- Counterexample to C7 as stated: a caller-supplied cumulative-increase
override replaces the stored cumulative sum and can decrease it.  After
sighting pps 10 then 20, the stored `pps_cum_increase` is 10; a third call
overriding `pps_cum_increase = 3` stores 3, a strict decrease, so the
stored cumulative values are not monotonically non-decreasing across calls
that supply overrides. -/
theorem claim7_counterexample :
    ((resolve_flow_deltas (resolve_flow_deltas [] (mkFlow 10) 10 0).2
        (mkFlow 20) 20 0).2.lookup (flow_key (mkFlow 20)) =
      some (20, 0, 10, 0)) ∧
    ((resolve_flow_deltas
        (resolve_flow_deltas (resolve_flow_deltas [] (mkFlow 10) 10 0).2
          (mkFlow 20) 20 0).2
        { mkFlow 20 with pps_cum_increase := some 3 } 20 0).2.lookup
          (flow_key (mkFlow 20)) =
      some (20, 0, 3, 0)) ∧
    ¬ ((10 : ℚ) ≤ 3) := by
  refine ⟨?_, ?_, by norm_num⟩
  · norm_num [resolve_flow_deltas, mkFlow, flow_key, setStat, List.lookup]
  · norm_num [resolve_flow_deltas, mkFlow, flow_key, setStat, List.lookup]

/-- Claim C7 (amended): for calls that do not supply cumulative-increase
overrides (explicit delta overrides are allowed), the stored per-key
cumulative sums never decrease from one call to the next; a supplied
cumulative override instead replaces the stored value outright and may
decrease it. -/
theorem claim7_cum_monotone (stats : FlowStats) (flow : FlowFeatures)
    (cp cb : ℚ)
    (h1 : flow.pps_cum_increase = none) (h2 : flow.bps_cum_increase = none) :
    ∀ pp pb pc bcum, stats.lookup (flow_key flow) = some (pp, pb, pc, bcum) →
      ∃ e : RateEntry,
        (resolve_flow_deltas stats flow cp cb).2.lookup (flow_key flow) =
          some e ∧
        pc ≤ e.2.2.1 ∧ bcum ≤ e.2.2.2 := by
  intro pp pb pc bcum h
  simp only [resolve_flow_deltas, h1, h2, h, Option.getD_some, setStat]
  refine ⟨(cp, cb,
      pc + max 0 (match flow.pps_delta with | some d => d | none => cp - pp),
      bcum + max 0 (match flow.bps_delta with | some d => d | none => cb - pb)),
    ?_, ?_, ?_⟩
  · simp [List.lookup]
  · exact le_add_of_nonneg_right (le_max_left _ _)
  · exact le_add_of_nonneg_right (le_max_left _ _)

/-- Witness for the amended C7 on a concrete tracked key. -/
theorem claim7_cum_monotone_witness :
    ∃ e : RateEntry,
      (resolve_flow_deltas [(flow_key (mkFlow 12), (10, 0, 7, 2))]
          (mkFlow 12) 12 0).2.lookup (flow_key (mkFlow 12)) = some e ∧
      (7 : ℚ) ≤ e.2.2.1 ∧ (2 : ℚ) ≤ e.2.2.2 :=
  claim7_cum_monotone [(flow_key (mkFlow 12), (10, 0, 7, 2))] (mkFlow 12)
    12 0 rfl rfl 10 0 7 2 (by simp [List.lookup])


lemma transform_flow_state (svc : ModelService) (flow : FlowFeatures) :
    (transform_flow svc flow).2 =
      { svc with prev_flow_stats :=
          (resolve_flow_deltas svc.prev_flow_stats flow flow.pps flow.bps).2 } :=
  rfl

lemma iso_score_fn_stats (svc : ModelService) (stats : FlowStats) (v : List ℚ) :
    iso_score_fn { svc with prev_flow_stats := stats } v = iso_score_fn svc v :=
  rfl

lemma rf_score_fn_stats (svc : ModelService) (stats : FlowStats) (v : List ℚ) :
    rf_score_fn { svc with prev_flow_stats := stats } v = rf_score_fn svc v :=
  rfl

/-- With a model loaded, `predict` returns exactly the bundle built from the
transformed flow; the single unfolding lemma used by the fusion and range
claims. -/
lemma predict_loaded (svc : ModelService) (flow : FlowFeatures)
    (h : svc.model_loaded = true) :
    predict svc flow = Except.ok
      ({ is_anom := decide ((transform_flow svc flow).2.threshold ≤
            (iso_score_fn (transform_flow svc flow).2 (transform_flow svc flow).1 +
              clamp01 (match rf_score_fn (transform_flow svc flow).2
                  (transform_flow svc flow).1 with
                | some q => q
                | none => 1/2)) / 2)
         iso_score :=
           iso_score_fn (transform_flow svc flow).2 (transform_flow svc flow).1
         hybrid_score :=
           (iso_score_fn (transform_flow svc flow).2 (transform_flow svc flow).1 +
              clamp01 (match rf_score_fn (transform_flow svc flow).2
                  (transform_flow svc flow).1 with
                | some q => q
                | none => 1/2)) / 2
         rf_score :=
           rf_score_fn (transform_flow svc flow).2 (transform_flow svc flow).1 },
        (transform_flow svc flow).2) := by
  unfold predict
  rw [h]
  rfl

lemma clamp01_match_getD (o : Option ℚ) :
    clamp01 (match o with | some q => q | none => 1/2) = clamp01 (o.getD (1/2)) := by
  cases o <;> rfl

lemma iso_score_fn_bounds (svc : ModelService) (v : List ℚ) :
    0 ≤ iso_score_fn svc v ∧ iso_score_fn svc v ≤ 1 := by
  unfold iso_score_fn
  cases svc.iso_model with
  | none => norm_num
  | some m =>
    dsimp only
    split_ifs
    · exact ⟨clamp01_nonneg _, clamp01_le_one _⟩
    · exact ⟨clamp01_nonneg _, clamp01_le_one _⟩

/-- Claim C1: with the model loaded, prediction always succeeds and the
hybrid score is the unweighted mean of the two detector slots — the
isolation-forest score always contributes, and the classifier slot
contributes its clamped probability when the classifier is loaded and its
scoring succeeds, and the neutral constant `0.5` when it is absent or its
scoring raises (both surfaced as `rf_score = none`); the verdict holds
exactly when the hybrid score reaches the threshold.  The fixed arity of
the average is two. -/
theorem claim1_hybrid_fusion (svc : ModelService) (flow : FlowFeatures)
    (h : svc.model_loaded = true) :
    ∃ b s, predict svc flow = Except.ok (b, s) ∧
      b.iso_score = iso_score_fn svc (transform_flow svc flow).1 ∧
      b.rf_score = rf_score_fn svc (transform_flow svc flow).1 ∧
      b.hybrid_score = (b.iso_score + clamp01 ((b.rf_score).getD (1/2))) / 2 ∧
      (∀ q, b.rf_score = some q →
        b.hybrid_score = (b.iso_score + clamp01 q) / 2) ∧
      (b.rf_score = none → b.hybrid_score = (b.iso_score + 1/2) / 2) ∧
      (b.is_anom = true ↔ svc.threshold ≤ b.hybrid_score) := by
  refine ⟨_, _, predict_loaded svc flow h, ?_, ?_, ?_, ?_, ?_, ?_⟩
  · rw [transform_flow_state, iso_score_fn_stats]
  · rw [transform_flow_state, rf_score_fn_stats]
  · exact congrArg (fun c => (_ + c) / 2) (clamp01_match_getD _)
  · intro q hq
    dsimp only at hq ⊢
    rw [hq]
  · intro hq
    dsimp only at hq ⊢
    rw [hq]
    norm_num [clamp01]
  · rw [transform_flow_state]
    exact decide_eq_true_iff

/-- Witness for C1 on a concrete loaded service. -/
theorem claim1_hybrid_fusion_witness :
    ∃ b s, predict demoService (mkFlow 10) = Except.ok (b, s) ∧
      b.iso_score = iso_score_fn demoService (transform_flow demoService (mkFlow 10)).1 ∧
      b.rf_score = rf_score_fn demoService (transform_flow demoService (mkFlow 10)).1 ∧
      b.hybrid_score = (b.iso_score + clamp01 ((b.rf_score).getD (1/2))) / 2 ∧
      (∀ q, b.rf_score = some q →
        b.hybrid_score = (b.iso_score + clamp01 q) / 2) ∧
      (b.rf_score = none → b.hybrid_score = (b.iso_score + 1/2) / 2) ∧
      (b.is_anom = true ↔ demoService.threshold ≤ b.hybrid_score) :=
  claim1_hybrid_fusion demoService (mkFlow 10) rfl

/-- Claim C5: with the model loaded, every detector score in the returned
bundle lies in `[0, 1]` — the normalized isolation-forest score
unconditionally, the classifier score under the sklearn contract that
`predict_proba` emits probabilities — and the fused hybrid score lies in
`[0, 1]` unconditionally. -/
theorem claim5_score_ranges (svc : ModelService) (flow : FlowFeatures)
    (h : svc.model_loaded = true)
    (hprob : ∀ v q, rf_score_fn svc v = some q → 0 ≤ q ∧ q ≤ 1) :
    ∃ b s, predict svc flow = Except.ok (b, s) ∧
      (0 ≤ b.iso_score ∧ b.iso_score ≤ 1) ∧
      (0 ≤ b.hybrid_score ∧ b.hybrid_score ≤ 1) ∧
      (∀ q, b.rf_score = some q → 0 ≤ q ∧ q ≤ 1) := by
  refine ⟨_, _, predict_loaded svc flow h, ?_, ?_, ?_⟩
  all_goals
    have hiso := iso_score_fn_bounds (transform_flow svc flow).2
      (transform_flow svc flow).1
  · exact hiso
  · have hc0 := clamp01_nonneg (match rf_score_fn (transform_flow svc flow).2
        (transform_flow svc flow).1 with
      | some q => q
      | none => (1:ℚ)/2)
    have hc1 := clamp01_le_one (match rf_score_fn (transform_flow svc flow).2
        (transform_flow svc flow).1 with
      | some q => q
      | none => (1:ℚ)/2)
    constructor
    · dsimp only
      linarith [hiso.1]
    · dsimp only
      linarith [hiso.2]
  · intro q hq
    dsimp only at hq
    rw [transform_flow_state, rf_score_fn_stats] at hq
    exact hprob _ _ hq

/-- Witness for C5 on a concrete loaded service whose classifier emits the
probability 3/4. -/
theorem claim5_score_ranges_witness :
    ∃ b s, predict demoService (mkFlow 10) = Except.ok (b, s) ∧
      (0 ≤ b.iso_score ∧ b.iso_score ≤ 1) ∧
      (0 ≤ b.hybrid_score ∧ b.hybrid_score ≤ 1) ∧
      (∀ q, b.rf_score = some q → 0 ≤ q ∧ q ≤ 1) :=
  claim5_score_ranges demoService (mkFlow 10) rfl
    (by
      intro v q hq
      simp only [rf_score_fn, demoService, Option.some.injEq] at hq
      rw [← hq]
      norm_num)


/-- Counterexample to C9 as stated: `train` writes the artifacts in place
one after another, so a run that fails after dumping the three encoders and
the scaler (before dumping the isolation forest) leaves a store in which
the required files all exist — `_load_artifacts` will load it — but the
encoders and scaler come from the failed run (version 1) while the
isolation forest is the stale file from the previous run (version 0): a
partially written bundle is loadable. -/
theorem claim9_counterexample :
    loadable (writeUpTo (fun _ => some 0) 1 4) = true ∧
    writeUpTo (fun _ => some 0) 1 4 ArtifactName.enc_src_ip = some 1 ∧
    writeUpTo (fun _ => some 0) 1 4 ArtifactName.isolation_forest = some 0 :=
  ⟨rfl, rfl, rfl⟩

/-- Claim C9 (amended): persistence is sequential and in place, not atomic:
over a store holding a complete previous bundle, a training run that fails
after any number `k` of its writes always leaves the store loadable, and
for `1 ≤ k ≤ 4` the loadable store mixes the failed run's encoders with the
previous run's isolation forest. -/
theorem claim9_sequential_writes (store : ArtifactStore) (v k : Nat)
    (hc : ∀ a ∈ requiredArtifacts, (store a).isSome = true) :
    loadable (writeUpTo store v k) = true ∧
    (1 ≤ k → k ≤ 4 →
      writeUpTo store v k ArtifactName.enc_src_ip = some v ∧
      writeUpTo store v k ArtifactName.isolation_forest =
        store ArtifactName.isolation_forest) := by
  constructor
  · unfold loadable
    rw [List.all_eq_true]
    intro a ha
    unfold writeUpTo
    split_ifs with hmem
    · rfl
    · exact hc a ha
  · intro hk1 hk4
    interval_cases k
    · exact ⟨rfl, rfl⟩
    · exact ⟨rfl, rfl⟩
    · exact ⟨rfl, rfl⟩
    · exact ⟨rfl, rfl⟩

/-- Witness for the amended C9 over a concrete complete store. -/
theorem claim9_sequential_writes_witness :
    loadable (writeUpTo (fun _ => some 7) 8 4) = true ∧
    (writeUpTo (fun _ => some 7) 8 4 ArtifactName.enc_src_ip = some 8 ∧
      writeUpTo (fun _ => some 7) 8 4 ArtifactName.isolation_forest =
        (fun (_ : ArtifactName) => some 7) ArtifactName.isolation_forest) :=
  have h := claim9_sequential_writes (fun _ => some 7) 8 4 (fun a _ => rfl)
  ⟨h.1, h.2 (by norm_num) (by norm_num)⟩

lemma gridStep_snd_le (f : ℚ → ℚ) (a : ℚ × ℚ) (c : ℚ) :
    a.2 ≤ (gridStep f a c).2 := by
  unfold gridStep
  split_ifs with h
  · exact le_of_lt h
  · exact le_rfl

lemma gridFold_snd_le (f : ℚ → ℚ) (cs : List ℚ) : ∀ a : ℚ × ℚ,
    a.2 ≤ (cs.foldl (gridStep f) a).2 := by
  induction cs with
  | nil => intro a; exact le_rfl
  | cons c0 cs ih =>
    intro a
    simp only [List.foldl_cons]
    exact le_trans (gridStep_snd_le f a c0) (ih (gridStep f a c0))

lemma gridFold_bound (f : ℚ → ℚ) (cs : List ℚ) : ∀ (a : ℚ × ℚ), ∀ c ∈ cs,
    f c ≤ (cs.foldl (gridStep f) a).2 := by
  induction cs with
  | nil => intro a c hc; cases hc
  | cons c0 cs ih =>
    intro a c hc
    simp only [List.foldl_cons]
    rcases List.mem_cons.mp hc with hce | hce
    · subst hce
      refine le_trans ?_ (gridFold_snd_le f cs (gridStep f a c))
      unfold gridStep
      split_ifs with hlt
      · exact le_rfl
      · exact le_of_not_lt hlt
    · exact ih (gridStep f a c0) c hce

lemma gridFold_cases (f : ℚ → ℚ) (cs : List ℚ) : ∀ a : ℚ × ℚ,
    cs.foldl (gridStep f) a = a ∨
      ((cs.foldl (gridStep f) a).1 ∈ cs ∧
        f (cs.foldl (gridStep f) a).1 = (cs.foldl (gridStep f) a).2 ∧
        a.2 < (cs.foldl (gridStep f) a).2) := by
  induction cs with
  | nil => intro a; exact Or.inl rfl
  | cons c0 cs ih =>
    intro a
    simp only [List.foldl_cons]
    rcases ih (gridStep f a c0) with h | ⟨h1, h2, h3⟩
    · rw [h]
      unfold gridStep
      split_ifs with hlt
      · exact Or.inr ⟨List.mem_cons_self c0 cs, rfl, hlt⟩
      · exact Or.inl rfl
    · refine Or.inr ⟨List.mem_cons_of_mem c0 h1, h2, ?_⟩
      exact lt_of_le_of_lt (gridStep_snd_le f a c0) h3

lemma gridFold_tie (f : ℚ → ℚ) (cs : List ℚ) : ∀ a : ℚ × ℚ,
    cs.Pairwise (· ≤ ·) →
    ∀ c ∈ cs, f c = (cs.foldl (gridStep f) a).2 →
      (cs.foldl (gridStep f) a).1 ≤ c ∨
        (cs.foldl (gridStep f) a = a ∧ a.2 = f c) := by
  induction cs with
  | nil => intro a _ c hc; cases hc
  | cons c0 cs ih =>
    intro a hp c hc hfc
    have hp' := List.pairwise_cons.mp hp
    simp only [List.foldl_cons] at hfc ⊢
    rcases List.mem_cons.mp hc with hce | hce
    · subst hce
      by_cases hlt : a.2 < f c
      · have hstep : gridStep f a c = (c, f c) := by
          unfold gridStep
          rw [if_pos hlt]
        rw [hstep] at hfc ⊢
        rcases gridFold_cases f cs (c, f c) with h | ⟨_, _, h3⟩
        · rw [h]
          exact Or.inl le_rfl
        · exact absurd hfc (ne_of_lt h3)
      · have hstep : gridStep f a c = a := by
          unfold gridStep
          rw [if_neg hlt]
        rw [hstep] at hfc ⊢
        rcases gridFold_cases f cs a with h | ⟨_, _, h3⟩
        · rw [h] at hfc ⊢
          exact Or.inr ⟨rfl, hfc.symm⟩
        · rw [← hfc] at h3
          exact absurd h3 hlt
    · rcases ih (gridStep f a c0) hp'.2 c hce hfc with h | ⟨h1, h2⟩
      · exact Or.inl h
      · by_cases hlt : a.2 < f c0
        · have hstep : gridStep f a c0 = (c0, f c0) := by
            unfold gridStep
            rw [if_pos hlt]
          rw [h1, hstep]
          exact Or.inl (hp'.1 c hce)
        · have hstep : gridStep f a c0 = a := by
            unfold gridStep
            rw [if_neg hlt]
          rw [hstep] at h1 h2 ⊢
          rw [h1]
          exact Or.inr ⟨rfl, h2⟩

lemma f1At_nonneg (rows : List (ℚ × Int)) (t : ℚ) : 0 ≤ f1At rows t := by
  unfold f1At
  dsimp only
  positivity

lemma thresholdCandidates_pairwise : thresholdCandidates.Pairwise (· ≤ ·) := by
  unfold thresholdCandidates
  refine List.Pairwise.map _ ?_ (List.pairwise_lt_range 90)
  intro i j hij
  have hij' : (i : ℚ) ≤ (j : ℚ) := by exact_mod_cast le_of_lt hij
  have hs : (0 : ℚ) ≤ (99/100 - 1/10) / 89 := by norm_num
  exact add_le_add_left (mul_le_mul_of_nonneg_right hij' hs) _

lemma thresholdCandidates_lb : ∀ c ∈ thresholdCandidates, (1:ℚ)/10 ≤ c := by
  intro c hc
  unfold thresholdCandidates at hc
  obtain ⟨i, _, rfl⟩ := List.mem_map.mp hc
  have hi : (0:ℚ) ≤ (i:ℚ) := by positivity
  have hs : (0:ℚ) ≤ (99/100 - 1/10)/89 := by norm_num
  have h0 : (0:ℚ) ≤ (i:ℚ) * ((99/100 - 1/10)/89) := mul_nonneg hi hs
  linarith

lemma thresholdCandidates_head_mem :
    (1/10 + (0:ℚ) * ((99/100 - 1/10) / 89)) ∈ thresholdCandidates := by
  unfold thresholdCandidates
  have h0 : (0:ℕ) ∈ List.range 90 := by decide
  exact List.mem_map.mpr ⟨0, h0, by norm_num⟩

/-- Claim C6: on non-empty labeled data containing both classes, the
calibrated threshold is a member of the dense grid `linspace(0.10, 0.99, 90)`
that maximizes the (1e-9-smoothed, as in the source) F1 of the verdict
`hybrid_score >= threshold` against the labels; ties are broken in favor of
the first-encountered (lowest) candidate, and the selected threshold is
never below the grid's lower bound 0.10. -/
theorem claim6_threshold_grid (default : ℚ) (scores : List ℚ)
    (labels : List Int) (h1 : scores ≠ []) (h2 : labels ≠ [])
    (h3 : 2 ≤ labels.dedup.length) :
    calculate_threshold default scores labels ∈ thresholdCandidates ∧
    (1:ℚ)/10 ≤ calculate_threshold default scores labels ∧
    (∀ c ∈ thresholdCandidates,
      f1At (scores.zip labels) c ≤
        f1At (scores.zip labels) (calculate_threshold default scores labels)) ∧
    (∀ c ∈ thresholdCandidates,
      f1At (scores.zip labels) c =
        f1At (scores.zip labels) (calculate_threshold default scores labels) →
      calculate_threshold default scores labels ≤ c) := by
  have hs1 : scores.isEmpty = false := by
    cases scores with
    | nil => exact absurd rfl h1
    | cons a l => rfl
  have hs2 : labels.isEmpty = false := by
    cases labels with
    | nil => exact absurd rfl h2
    | cons a l => rfl
  have hred : calculate_threshold default scores labels =
      (thresholdCandidates.foldl (gridStep (f1At (scores.zip labels)))
        (default, -1)).1 := by
    unfold calculate_threshold
    rw [hs1, hs2]
    simp only [Bool.or_self, Bool.false_eq_true, if_false]
    rw [if_neg (Nat.not_lt.mpr h3)]
  set f := f1At (scores.zip labels) with hf
  set r := thresholdCandidates.foldl (gridStep f) (default, -1) with hr
  have hbound : ∀ c ∈ thresholdCandidates, f c ≤ r.2 :=
    gridFold_bound f thresholdCandidates (default, -1)
  have hpos : (-1 : ℚ) < r.2 := by
    have hx := hbound _ thresholdCandidates_head_mem
    have h0 := f1At_nonneg (scores.zip labels)
      (1/10 + (0:ℚ) * ((99/100 - 1/10) / 89))
    calc (-1 : ℚ) < 0 := by norm_num
      _ ≤ f (1/10 + (0:ℚ) * ((99/100 - 1/10) / 89)) := h0
      _ ≤ r.2 := hx
  have hcase := gridFold_cases f thresholdCandidates (default, -1)
  rw [← hr] at hcase
  rcases hcase with hcc | ⟨hmem, hval, _⟩
  · rw [hcc] at hpos
    exact absurd hpos (lt_irrefl _)
  · refine ⟨?_, ?_, ?_, ?_⟩
    · rw [hred]
      exact hmem
    · rw [hred]
      exact thresholdCandidates_lb _ hmem
    · intro c hc
      rw [hred, hval]
      exact hbound c hc
    · intro c hc hfc
      rw [hred] at hfc ⊢
      rw [hval] at hfc
      have htie := gridFold_tie f thresholdCandidates (default, -1)
        thresholdCandidates_pairwise c hc
      rw [← hr] at htie
      rcases htie hfc with h | ⟨hcc, _⟩
      · exact h
      · rw [hcc] at hpos
        exact absurd hpos (lt_irrefl _)

/-- Witness for C6 on a concrete two-row labeled sample. -/
theorem claim6_threshold_grid_witness :
    calculate_threshold (51/100) [9/10, 1/5] [1, 0] ∈ thresholdCandidates ∧
    (1:ℚ)/10 ≤ calculate_threshold (51/100) [9/10, 1/5] [1, 0] :=
  have h := claim6_threshold_grid (51/100) [9/10, 1/5] [1, 0]
    (by simp) (by simp) (by decide)
  ⟨h.1, h.2.1⟩

end SafeOn
